import Mathlib

/-!
Shallow embedding of the Olympics dashboard's query engine
(src/olympics_dashboard.py).  Tables are lists of rows; pandas boolean-mask
filters become `List.filter`, `groupby` becomes grouping over the sorted
deduplicated key list (pandas groupby sorts its keys and drops null keys),
`sort_values(ascending=False)` is modelled by its documented contract
`SortValuesDesc` — some permutation of the input that is non-increasing in
the key; the default `kind='quicksort'` is not stable, so the order of tied
elements is unspecified — with the deterministic `sortDesc` serving as one
concrete representative where tie order is irrelevant, and
`merge(how="left")` becomes a lookup producing one output row per matching
lookup row (or a single row with an absent region when no code matches).
-/

/-- Medal values that can appear in the `Medal` column; a pandas `NaN`
medal cell is modelled as `none` at the row level. -/
inductive Medal where
  | Gold
  | Silver
  | Bronze
deriving DecidableEq, Repr

/-- A row of `athlete_events.csv` restricted to the columns the dashboard
reads: ID, Name, Sex, Year, Sport, Event, Medal, NOC. -/
structure AthleteEvent where
  id : Nat
  name : String
  sex : String
  year : Int
  sport : String
  event : String
  medal : Option Medal
  noc : String
deriving DecidableEq, Repr

/-- A row of `noc_regions.csv`: committee code and region name. -/
structure NocRegion where
  noc : String
  region : String
deriving DecidableEq, Repr

/-- A row of the joined table `olympics_df`: the athlete-event columns plus
the `region` column produced by the left merge (absent when the committee
code has no match in the lookup table). -/
structure Row where
  id : Nat
  name : String
  sex : String
  year : Int
  sport : String
  event : String
  medal : Option Medal
  noc : String
  region : Option String
deriving DecidableEq, Repr

/-- Attach a region (possibly absent) to an athlete-event row. -/
def toRow (a : AthleteEvent) (reg : Option String) : Row :=
  { id := a.id, name := a.name, sex := a.sex, year := a.year, sport := a.sport,
    event := a.event, medal := a.medal, noc := a.noc, region := reg }

/-- One left-merge step: `athletes_df.merge(noc_df, how="left", on="NOC")`
produces, for each athlete row, one output row per lookup row with the same
committee code, or a single row with an absent region when none matches. -/
def mergeRow (nocs : List NocRegion) (a : AthleteEvent) : List Row :=
  match nocs.filter (fun n => decide (n.noc = a.noc)) with
  | [] => [toRow a none]
  | ms => ms.map (fun n => toRow a (some n.region))

/-- The joined table built by `load_data` (src line 28-33). -/
def load_data (athletes : List AthleteEvent) (nocs : List NocRegion) : List Row :=
  athletes.flatMap (mergeRow nocs)

/-- The sidebar selection: years, countries, sports multiselects, the medal
radio (`none` models the "All" choice) and the "Show Overall Analysis
(Ignore Filters)" checkbox. -/
structure FilterSelection where
  years : List Int
  countries : List String
  sports : List String
  medal : Option Medal
  overallMode : Bool
deriving DecidableEq, Repr

/-- The sidebar filter (src lines 58-66): when the overall checkbox is off,
keep rows whose year, region and sport are selected, then, when the medal
radio is not "All", keep rows bearing exactly that medal.  A row with an
absent region never satisfies `isin(selected_countries)`. -/
def filtered_df (table : List Row) (sel : FilterSelection) : List Row :=
  if sel.overallMode then table
  else
    let base := table.filter (fun r =>
      decide (r.year ∈ sel.years) &&
      decide (∃ c ∈ sel.countries, r.region = some c) &&
      decide (r.sport ∈ sel.sports))
    match sel.medal with
    | none => base
    | some m => base.filter (fun r => decide (r.medal = some m))

/-- Insert an element into a list kept sorted by a numeric measure in
descending order.  Helper for `sortDesc`; the insertion point it picks
among tied entries is one arbitrary choice within the latitude
`sort_values` leaves (its default kind is not stable), and no theorem
below depends on that choice. -/
def insertDesc {α : Type} (val : α → Nat) (a : α) : List α → List α
  | [] => [a]
  | b :: l => if val b ≤ val a then a :: b :: l else b :: insertDesc val a l

/-- One deterministic representative of pandas
`sort_values(ascending=False)` / `sort_values('Total', ascending=False)`:
its output satisfies the sort's documented contract (`SortValuesDesc`
below), which does not pin down the order of tied elements.  It is used to
render the dashboard views; theorems about tie order are stated against
the contract, never against this representative. -/
def sortDesc {α : Type} (val : α → Nat) : List α → List α
  | [] => []
  | a :: l => insertDesc val a (sortDesc val l)

/-- The documented contract of pandas `sort_values(ascending=False)` under
the default `kind='quicksort'`: the output is some permutation of the
input that is non-increasing in the key.  The default kind is not stable,
so the relative order of tied elements is unspecified — every list
satisfying this relation is a possible output of the call. -/
def SortValuesDesc {α : Type} (val : α → Nat) (input out : List α) : Prop :=
  out.Perm input ∧ out.Pairwise (fun a b => val b ≤ val a)

/-- Insert into a list kept sorted in ascending order. -/
def insertAsc {α : Type} [LinearOrder α] (a : α) : List α → List α
  | [] => [a]
  | b :: l => if a ≤ b then a :: b :: l else b :: insertAsc a l

/-- Ascending insertion sort, used to model the ascending key order pandas
`groupby(sort=True)` gives its groups and `sorted(...)` gives its values. -/
def sortAsc {α : Type} [LinearOrder α] : List α → List α
  | [] => []
  | a :: l => insertAsc a (sortAsc l)

/-- Sorted list of the distinct values of a column: the key list of a
pandas `groupby` (keys are deduplicated and emitted in ascending order). -/
def sortedDedup {α : Type} [LinearOrder α] [DecidableEq α] (l : List α) : List α :=
  sortAsc l.dedup

/-- The medal-bearing rows of a subset: `df[df['Medal'].notna()]`. -/
def medalRows (subset : List Row) : List Row :=
  subset.filter (fun r => r.medal.isSome)

/-- Count of rows bearing exactly the given medal. -/
def countMedal (rs : List Row) (m : Medal) : Nat :=
  (rs.filter (fun r => decide (r.medal = some m))).length

/-- The group of rows whose region equals the given key: one `groupby`
group.  A row with an absent region belongs to no group, exactly as pandas
`groupby` drops null keys. -/
def regionGroup (md : List Row) (k : String) : List Row :=
  md.filter (fun r => decide (r.region = some k))

/-- One output row of the overall medal tally: the spec's tuple
(country, goldCount, silverCount, bronzeCount, total). -/
structure TallyRow where
  region : String
  gold : Nat
  silver : Nat
  bronze : Nat
  total : Nat
deriving DecidableEq, Repr

/-- The tally row of one region group: per-medal value counts and the
row sum `Total` (src line 75-76). -/
def tallyRowFor (md : List Row) (k : String) : TallyRow :=
  { region := k
    gold := countMedal (regionGroup md k) Medal.Gold
    silver := countMedal (regionGroup md k) Medal.Silver
    bronze := countMedal (regionGroup md k) Medal.Bronze
    total := countMedal (regionGroup md k) Medal.Gold +
      countMedal (regionGroup md k) Medal.Silver +
      countMedal (regionGroup md k) Medal.Bronze }

/-- The overall medal tally before the sort (src lines 74-76): one row per
region of a medal-bearing row (null regions dropped), in the ascending key
order `groupby` emits, each with its per-medal counts and `Total`. -/
def tallyRows (subset : List Row) : List TallyRow :=
  (sortedDedup ((medalRows subset).filterMap (fun r => r.region))).map
    (tallyRowFor (medalRows subset))

/-- The overall medal tally as rendered (src lines 74-77): the grouped
counts of `tallyRows` passed through `sort_values('Total',
ascending=False)`, here its representative `sortDesc`; the set of possible
outputs of the source's unstable sort is `SortValuesDesc (fun t => t.total)
(tallyRows subset)`. -/
def overall_tally (subset : List Row) : List TallyRow :=
  sortDesc (fun t => t.total) (tallyRows subset)

/-- A medal-bearing row whose committee code resolved to no region. -/
def unmappedGoldRow : Row :=
  { id := 1, name := "X", sex := "M", year := 2000, sport := "S", event := "E",
    medal := some Medal.Gold, noc := "ZZZ", region := none }

/-- A gold-medal row for athlete "A" in region "Alpha", used to exhibit
tied totals. -/
def tieRowA : Row :=
  { id := 11, name := "A", sex := "M", year := 2000, sport := "S", event := "E",
    medal := some Medal.Gold, noc := "AAA", region := some "Alpha" }

/-- A gold-medal row for athlete "B" in region "Beta": together with
`tieRowA` it gives two groups with equal medal counts. -/
def tieRowB : Row :=
  { id := 12, name := "B", sex := "M", year := 2000, sport := "S", event := "E",
    medal := some Medal.Gold, noc := "BBB", region := some "Beta" }

/-- A two-row subset whose two regions (and two athletes) are tied at one
medal each. -/
def tieSubset : List Row :=
  [tieRowA, tieRowB]

/-- One output row of a top-N count view: a group key (athlete name or
sport) and its medal-row count. -/
structure CountRow where
  key : String
  count : Nat
deriving DecidableEq, Repr

/-- Group the medal-bearing rows of a dataframe by a string key and count
the rows of each group: `df[df['Medal'].notna()].groupby(k)['Medal'].count()`
(group keys ascending, as pandas emits them). -/
def groupCounts (key : Row → String) (df : List Row) : List CountRow :=
  let md := df.filter (fun r => r.medal.isSome)
  (sortedDedup (md.map key)).map
    (fun k => { key := k, count := (md.filter (fun r => decide (key r = k))).length })

/-- Top-N entities by medal count as rendered (src lines 113-114 and
124-125): group counts sorted descending by the representative `sortDesc`
and truncated to the first `n`.  The truncation of any output the unstable
sort may produce is described by `TopEntitiesResult`. -/
def topEntities (key : Row → String) (n : Nat) (df : List Row) : List CountRow :=
  (sortDesc (fun e => e.count) (groupCounts key df)).take n

/-- The possible results of the top-N pipeline (src lines 113-114 and
124-125), `groupby(key)['Medal'].count().sort_values(ascending=False)
.head(n)`: any output the sort's contract permits, truncated to `n`. -/
def TopEntitiesResult (key : Row → String) (n : Nat) (df : List Row)
    (res : List CountRow) : Prop :=
  ∃ out : List CountRow,
    SortValuesDesc (fun e => e.count) (groupCounts key df) out ∧ res = out.take n

/-- Top athletes for a country choice (src lines 112-114): `none` models
the "Overall" choice, otherwise restrict to the chosen region first. -/
def top_athletes (table : List Row) (c : Option String) : List CountRow :=
  topEntities (fun r => r.name) 10
    (match c with
     | none => table
     | some c' => table.filter (fun r => decide (r.region = some c')))

/-- Top sports for a country choice (src lines 123-125). -/
def top_sports (table : List Row) (c : Option String) : List CountRow :=
  topEntities (fun r => r.sport) 10
    (match c with
     | none => table
     | some c' => table.filter (fun r => decide (r.region = some c')))

/-- The gender participation trend (src line 158):
`olympics_df.groupby(['Year', 'Sex'])['ID'].count().unstack()`.
One output row per distinct year (ascending), one cell per distinct sex
value (ascending); a (year, sex) combination with no input rows has no
group, so after `unstack()` — which has no `fill_value` here — its cell is
the missing value `none`, not zero. -/
def gender_trend (table : List Row) : List (Int × List (String × Option Nat)) :=
  (sortedDedup (table.map (fun r => r.year))).map (fun y =>
    (y, (sortedDedup (table.map (fun r => r.sex))).map (fun s =>
      (s, if (table.filter (fun r => decide (r.year = y ∧ r.sex = s))).length = 0
          then none
          else some (table.filter (fun r => decide (r.year = y ∧ r.sex = s))).length))))

/-- A participation row used in the C5 counterexample. -/
def trendRowA : Row :=
  { id := 1, name := "A", sex := "F", year := 2000, sport := "S", event := "E",
    medal := none, noc := "USA", region := some "USA" }

/-- A second participation row with the other sex in another year. -/
def trendRowB : Row :=
  { id := 2, name := "B", sex := "M", year := 2004, sport := "S", event := "E",
    medal := none, noc := "CAN", region := some "Canada" }

/-- Summary metrics (src lines 103-105 and 227-229): number of distinct
athlete IDs (`nunique`), number of distinct event identities, and the
non-distinct count of medal-bearing rows (`Medal.notna().sum()`). -/
def summaryMetrics (subset : List Row) : Nat × Nat × Nat :=
  ((subset.map (fun r => r.id)).dedup.length,
   (subset.map (fun r => r.event)).dedup.length,
   (subset.filter (fun r => r.medal.isSome)).length)

/-- First row of the spec's concrete three-row scenario. -/
def scenarioRow1 : Row :=
  { id := 1, name := "A", sex := "M", year := 2016, sport := "Swimming",
    event := "100m Freestyle", medal := some Medal.Gold, noc := "USA",
    region := some "USA" }

/-- Second row of the scenario: same games, no medal. -/
def scenarioRow2 : Row :=
  { id := 2, name := "B", sex := "F", year := 2016, sport := "Swimming",
    event := "200m Freestyle", medal := none, noc := "USA",
    region := some "USA" }

/-- Third row of the scenario: a different year, country and sport. -/
def scenarioRow3 : Row :=
  { id := 3, name := "C", sex := "M", year := 2012, sport := "Hockey",
    event := "Hockey Final", medal := some Medal.Silver, noc := "CAN",
    region := some "Canada" }

/-- The scenario's selection: Years={2016}, Countries={USA},
Sports={Swimming}, Medal=All, overall mode off. -/
def scenarioSel : FilterSelection :=
  { years := [2016], countries := ["USA"], sports := ["Swimming"],
    medal := none, overallMode := false }

/-- An athlete-event row whose committee code has no lookup entry. -/
def unmatchedAthlete : AthleteEvent :=
  { id := 9, name := "Z", sex := "M", year := 2000, sport := "S", event := "E",
    medal := some Medal.Gold, noc := "ZZZ" }

/-- The advanced filter feeding the download button (src lines 206-210):
year, country and sport membership tests only — the medal radio and the
overall checkbox play no part in this subset. -/
def filtered_advanced_df (table : List Row) (sel : FilterSelection) : List Row :=
  table.filter (fun r =>
    decide (r.year ∈ sel.years) &&
    decide (∃ c ∈ sel.countries, r.region = some c) &&
    decide (r.sport ∈ sel.sports))

/-- Rows of the chosen country bearing a medal:
`olympics_df[(olympics_df['region'] == c) & (olympics_df['Medal'].notna())]`. -/
def countryMedalRows (table : List Row) (c : String) : List Row :=
  table.filter (fun r => decide (r.region = some c) && r.medal.isSome)

/-- Medals over time for a country (src lines 143-144): count the chosen
country's medal rows per year, years ascending. -/
def medals_over_time (table : List Row) (c : String) : List (Int × Nat) :=
  (sortedDedup ((countryMedalRows table c).map (fun r => r.year))).map
    (fun y => (y,
      ((countryMedalRows table c).filter (fun r => decide (r.year = y))).length))

/-- Sport/medal heatmap for a country (src lines 173-174): per sport
(ascending), the counts of each medal value, zero-filled. -/
def sports_heatmap (table : List Row) (c : String) : List (String × Nat × Nat × Nat) :=
  (sortedDedup ((countryMedalRows table c).map (fun r => r.sport))).map
    (fun s => (s,
      countMedal ((countryMedalRows table c).filter (fun r => decide (r.sport = s)))
        Medal.Gold,
      countMedal ((countryMedalRows table c).filter (fun r => decide (r.sport = s)))
        Medal.Silver,
      countMedal ((countryMedalRows table c).filter (fun r => decide (r.sport = s)))
        Medal.Bronze))

/-- Gender medal split for a country (src lines 186-188): medal-row counts
per sex, largest first (`value_counts`). -/
def gender_count (table : List Row) (c : String) : List (String × Nat) :=
  sortDesc (fun p => p.snd)
    ((((countryMedalRows table c).map (fun r => r.sex)).dedup).map
      (fun s => (s,
        ((countryMedalRows table c).filter (fun r => decide (r.sex = s))).length)))

/-- The per-view country dropdown choices (`selectbox` values): `none`
models the "Overall" entry where the source offers one. -/
structure ViewChoices where
  athleteCountry : Option String
  sportsCountry : Option String
  trendCountry : String
  heatCountry : String
  genderCountry : String
deriving DecidableEq, Repr

/-- The five per-country aggregate sections of the page. -/
structure DashboardViews where
  topAthletesView : List CountRow
  topSportsView : List CountRow
  medalsOverTimeView : List (Int × Nat)
  sportsHeatmapView : List (String × Nat × Nat × Nat)
  genderCountView : List (String × Nat)
deriving DecidableEq, Repr

/-- The per-country view sections (src lines 110-196), rendered while a
sidebar selection `sel` is active: each section is computed from the full
joined table `olympics_df` and its own country dropdown — the source never
reads `filtered_df` or any part of the sidebar selection in these blocks. -/
def renderViews (table : List Row) (sel : FilterSelection) (ch : ViewChoices) :
    DashboardViews :=
  { topAthletesView := top_athletes table ch.athleteCountry
    topSportsView := top_sports table ch.sportsCountry
    medalsOverTimeView := medals_over_time table ch.trendCountry
    sportsHeatmapView := sports_heatmap table ch.heatCountry
    genderCountView := gender_count table ch.genderCountry }

theorem mem_filtered_df (table : List Row) (sel : FilterSelection)
    (h : sel.overallMode = false) (r : Row) :
    r ∈ filtered_df table sel ↔
      r ∈ table ∧ r.year ∈ sel.years ∧ (∃ c ∈ sel.countries, r.region = some c) ∧
        r.sport ∈ sel.sports ∧ (∀ m, sel.medal = some m → r.medal = some m) := by
  unfold filtered_df
  rw [if_neg (by simp [h])]
  cases hm : sel.medal with
  | none =>
      simp only [List.mem_filter, Bool.and_eq_true, decide_eq_true_eq]
      constructor
      · rintro ⟨hr, ⟨⟨hy, hc⟩, hs⟩⟩
        exact ⟨hr, hy, hc, hs, by simp [hm]⟩
      · rintro ⟨hr, hy, hc, hs, _⟩
        exact ⟨hr, ⟨⟨hy, hc⟩, hs⟩⟩
  | some m =>
      simp only [List.mem_filter, Bool.and_eq_true, decide_eq_true_eq]
      constructor
      · rintro ⟨⟨hr, ⟨⟨hy, hc⟩, hs⟩⟩, hmed⟩
        exact ⟨hr, hy, hc, hs, by intro m' hm'; cases hm'; exact hmed⟩
      · rintro ⟨hr, hy, hc, hs, hmed⟩
        exact ⟨⟨hr, ⟨⟨hy, hc⟩, hs⟩⟩, hmed m rfl⟩

/-- C1: the sidebar filter keeps exactly the rows passing the year, region
and sport membership tests plus the medal test when the radio is not "All";
the overall checkbox bypasses everything; an empty years, countries or
sports selection yields the empty subset. -/
theorem filterRows_spec (table : List Row) (sel : FilterSelection) :
    (sel.overallMode = true → filtered_df table sel = table) ∧
    (sel.overallMode = false →
      ∀ r : Row, r ∈ filtered_df table sel ↔
        r ∈ table ∧ r.year ∈ sel.years ∧ (∃ c ∈ sel.countries, r.region = some c) ∧
          r.sport ∈ sel.sports ∧ (∀ m, sel.medal = some m → r.medal = some m)) ∧
    (sel.overallMode = false →
      (sel.years = [] ∨ sel.countries = [] ∨ sel.sports = []) →
      filtered_df table sel = []) := by
  refine ⟨fun h => by simp [filtered_df, h],
    fun h r => mem_filtered_df table sel h r, fun h hempty => ?_⟩
  · unfold filtered_df
    rw [if_neg (by simp [h])]
    have hbase : table.filter (fun r =>
        decide (r.year ∈ sel.years) &&
        decide (∃ c ∈ sel.countries, r.region = some c) &&
        decide (r.sport ∈ sel.sports)) = [] := by
      apply List.filter_eq_nil_iff.mpr
      intro r _
      rcases hempty with he | he | he <;> simp [he]
    cases hm : sel.medal with
    | none => simpa using hbase
    | some m => simp only [hbase]; rfl

/-- Witness for C1 at a concrete table and selection: with an empty sports
selection and the overall checkbox off, the filter returns the empty list. -/
theorem filterRows_spec_witness :
    filtered_df [{ id := 1, name := "A", sex := "M", year := 2016, sport := "Swimming",
                   event := "E", medal := some Medal.Gold, noc := "USA",
                   region := some "USA" }]
      { years := [2016], countries := ["USA"], sports := [], medal := none,
        overallMode := false } = [] :=
  (filterRows_spec _ _).2.2 rfl (Or.inr (Or.inr rfl))

theorem perm_insertDesc {α : Type} (val : α → Nat) (a : α) (l : List α) :
    (insertDesc val a l).Perm (a :: l) := by
  induction l with
  | nil => simp [insertDesc]
  | cons b l ih =>
      by_cases h : val b ≤ val a
      · simp [insertDesc, h]
      · simp only [insertDesc, if_neg h]
        exact (ih.cons b).trans (List.Perm.swap a b l)

theorem perm_sortDesc {α : Type} (val : α → Nat) (l : List α) :
    (sortDesc val l).Perm l := by
  induction l with
  | nil => simp [sortDesc]
  | cons a l ih => exact (perm_insertDesc val a (sortDesc val l)).trans (ih.cons a)

theorem perm_insertAsc {α : Type} [LinearOrder α] (a : α) (l : List α) :
    (insertAsc a l).Perm (a :: l) := by
  induction l with
  | nil => simp [insertAsc]
  | cons b l ih =>
      by_cases h : a ≤ b
      · simp [insertAsc, h]
      · simp only [insertAsc, if_neg h]
        exact (ih.cons b).trans (List.Perm.swap a b l)

theorem perm_sortAsc {α : Type} [LinearOrder α] (l : List α) :
    (sortAsc l).Perm l := by
  induction l with
  | nil => simp [sortAsc]
  | cons a l ih => exact (perm_insertAsc a (sortAsc l)).trans (ih.cons a)

theorem nodup_sortedDedup {α : Type} [LinearOrder α] [DecidableEq α] (l : List α) :
    (sortedDedup l).Nodup :=
  (perm_sortAsc l.dedup).nodup_iff.mpr (List.nodup_dedup l)

theorem mem_sortedDedup {α : Type} [LinearOrder α] [DecidableEq α] (l : List α) (x : α) :
    x ∈ sortedDedup l ↔ x ∈ l := by
  rw [sortedDedup, (perm_sortAsc l.dedup).mem_iff, List.mem_dedup]

theorem countMedal_sum (g : List Row) (h : ∀ r ∈ g, r.medal.isSome) :
    countMedal g Medal.Gold + countMedal g Medal.Silver + countMedal g Medal.Bronze
      = g.length := by
  induction g with
  | nil => rfl
  | cons r g ih =>
      have hr := h r (List.mem_cons_self r g)
      have htail := ih (fun x hx => h x (List.mem_cons_of_mem r hx))
      unfold countMedal at *
      cases hm : r.medal with
      | none => rw [hm] at hr; simp at hr
      | some m => cases m <;> simp [List.filter_cons, hm] <;> omega

theorem countMedal_regionGroup_medalRows (subset : List Row) (k : String) (m : Medal) :
    countMedal (regionGroup (medalRows subset) k) m =
      (subset.filter (fun r => decide (r.medal = some m ∧ r.region = some k))).length := by
  unfold countMedal regionGroup medalRows
  rw [List.filter_filter, List.filter_filter]
  apply congrArg List.length
  apply List.filter_congr
  intro r _
  by_cases h1 : r.medal = some m <;> by_cases h2 : r.region = some k <;>
    simp [h1, h2]

theorem perm_map_sortedDedup {α β : Type} [LinearOrder α] [DecidableEq α]
    (f : α → β) (l : List α) :
    ((sortedDedup l).map f).Perm (l.dedup.map f) :=
  (perm_sortAsc l.dedup).map f

theorem mem_tallyRows (subset : List Row) (t : TallyRow) :
    t ∈ tallyRows subset ↔
      ∃ k ∈ sortedDedup ((medalRows subset).filterMap (fun r => r.region)),
        t = tallyRowFor (medalRows subset) k := by
  unfold tallyRows
  rw [List.mem_map]
  constructor
  · rintro ⟨k, hk, rfl⟩
    exact ⟨k, hk, rfl⟩
  · rintro ⟨k, hk, rfl⟩
    exact ⟨k, hk, rfl⟩

theorem tallyRows_tie_perm :
    (tallyRows tieSubset).Perm
      [{ region := "Alpha", gold := 1, silver := 0, bronze := 0, total := 1 },
       { region := "Beta", gold := 1, silver := 0, bronze := 0, total := 1 }] := by
  have h : (((medalRows tieSubset).filterMap (fun r => r.region)).dedup).map
      (tallyRowFor (medalRows tieSubset))
      = [{ region := "Alpha", gold := 1, silver := 0, bronze := 0, total := 1 },
         { region := "Beta", gold := 1, silver := 0, bronze := 0, total := 1 }] := by
    decide
  have hp := perm_map_sortedDedup (tallyRowFor (medalRows tieSubset))
    ((medalRows tieSubset).filterMap (fun r => r.region))
  rw [h] at hp
  exact hp

/-- Counterexample to C2 as stated: with two regions tied at one medal
each, both orders of the two tally rows satisfy everything the code's
`sort_values('Total', ascending=False)` — whose default kind is not
stable — guarantees, and the two orders differ; so the tie order the claim
asserts (ascending group-key order, as a stable sort would give) is not
determined by the program. -/
theorem medalTally_tiebreak_counterexample :
    SortValuesDesc (fun t => t.total) (tallyRows tieSubset)
      [{ region := "Beta", gold := 1, silver := 0, bronze := 0, total := 1 },
       { region := "Alpha", gold := 1, silver := 0, bronze := 0, total := 1 }] ∧
    SortValuesDesc (fun t => t.total) (tallyRows tieSubset)
      [{ region := "Alpha", gold := 1, silver := 0, bronze := 0, total := 1 },
       { region := "Beta", gold := 1, silver := 0, bronze := 0, total := 1 }] ∧
    ([{ region := "Beta", gold := 1, silver := 0, bronze := 0, total := 1 },
      { region := "Alpha", gold := 1, silver := 0, bronze := 0, total := 1 }] :
      List TallyRow)
      ≠ [{ region := "Alpha", gold := 1, silver := 0, bronze := 0, total := 1 },
         { region := "Beta", gold := 1, silver := 0, bronze := 0, total := 1 }] := by
  refine ⟨⟨?_, by decide⟩, ⟨tallyRows_tie_perm.symm, by decide⟩, by decide⟩
  exact (List.Perm.swap _ _ _).trans tallyRows_tie_perm.symm

/-- C2 amended: any tally the code may render — any output of the sort
contract applied to the grouped counts — has, for each region owning a
medal-bearing row, exactly one tuple (country, gold, silver, bronze,
total) whose per-medal fields count that region's medal rows of each value
and whose total is their sum, and it is sorted non-increasing by total;
the order among tuples with equal totals is left unspecified by the
unstable sort. -/
theorem medalTally_amended (subset : List Row) (out : List TallyRow)
    (h : SortValuesDesc (fun t => t.total) (tallyRows subset) out) :
    (∀ t ∈ out,
      t.gold = (subset.filter (fun r =>
        decide (r.medal = some Medal.Gold ∧ r.region = some t.region))).length ∧
      t.silver = (subset.filter (fun r =>
        decide (r.medal = some Medal.Silver ∧ r.region = some t.region))).length ∧
      t.bronze = (subset.filter (fun r =>
        decide (r.medal = some Medal.Bronze ∧ r.region = some t.region))).length ∧
      t.total = t.gold + t.silver + t.bronze) ∧
    (∀ k : String, (∃ t ∈ out, t.region = k) ↔
      (∃ r ∈ subset, r.medal.isSome ∧ r.region = some k)) ∧
    (out.map (fun t => t.region)).Nodup ∧
    out.Pairwise (fun a b => b.total ≤ a.total) := by
  obtain ⟨hperm, hsort⟩ := h
  refine ⟨?_, ?_, ?_, hsort⟩
  · intro t ht
    rcases (mem_tallyRows subset t).mp (hperm.mem_iff.mp ht) with ⟨k, _, rfl⟩
    exact ⟨countMedal_regionGroup_medalRows subset k Medal.Gold,
      countMedal_regionGroup_medalRows subset k Medal.Silver,
      countMedal_regionGroup_medalRows subset k Medal.Bronze, rfl⟩
  · intro k
    constructor
    · rintro ⟨t, ht, rfl⟩
      rcases (mem_tallyRows subset t).mp (hperm.mem_iff.mp ht) with ⟨k, hk, rfl⟩
      rw [mem_sortedDedup, List.mem_filterMap] at hk
      rcases hk with ⟨r, hr, hreg⟩
      exact ⟨r, List.mem_of_mem_filter hr,
        (List.mem_filter.mp hr).2, by simpa [tallyRowFor] using hreg⟩
    · rintro ⟨r, hr, hmed, hreg⟩
      refine ⟨tallyRowFor (medalRows subset) k, ?_, rfl⟩
      rw [hperm.mem_iff, mem_tallyRows]
      refine ⟨k, ?_, rfl⟩
      rw [mem_sortedDedup, List.mem_filterMap]
      exact ⟨r, List.mem_filter.mpr ⟨hr, hmed⟩, hreg⟩
  · have hmapeq : (tallyRows subset).map (fun t => t.region)
        = sortedDedup ((medalRows subset).filterMap (fun r => r.region)) := by
      unfold tallyRows
      rw [List.map_map]
      exact List.map_id _
    have h2 := hperm.map (fun t => t.region)
    rw [hmapeq] at h2
    exact h2.nodup_iff.mpr (nodup_sortedDedup _)

/-- Witness for C2's amended theorem: applied to a one-region subset and
its (single) permitted output, reading off the sortedness conjunct. -/
theorem medalTally_amended_witness :
    ([{ region := "Alpha", gold := 1, silver := 0, bronze := 0, total := 1 }] :
      List TallyRow).Pairwise (fun a b => b.total ≤ a.total) :=
  (medalTally_amended [tieRowA]
    [{ region := "Alpha", gold := 1, silver := 0, bronze := 0, total := 1 }]
    ⟨by decide, by decide⟩).2.2.2

theorem groupCounts_tie_perm :
    (groupCounts (fun r => r.name) tieSubset).Perm
      [{ key := "A", count := 1 }, { key := "B", count := 1 }] := by
  have h : (((tieSubset.filter (fun r => r.medal.isSome)).map (fun r => r.name)).dedup).map
      (fun k =>
        ({ key := k
           count := ((tieSubset.filter (fun r => r.medal.isSome)).filter
             (fun r => decide (r.name = k))).length } : CountRow))
      = [{ key := "A", count := 1 }, { key := "B", count := 1 }] := by
    decide
  have hp := perm_map_sortedDedup
    (fun k =>
      ({ key := k
         count := ((tieSubset.filter (fun r => r.medal.isSome)).filter
           (fun r => decide (r.name = k))).length } : CountRow))
    ((tieSubset.filter (fun r => r.medal.isSome)).map (fun r => r.name))
  rw [h] at hp
  exact hp

/-- Counterexample to C4 as stated: with two athletes tied at one medal
each, both orders of the two count rows are (after `head(10)`) results the
code's unstable `sort_values(ascending=False)` permits, and they differ —
so neither the claimed stable tie-break nor exact-list idempotence under
re-sorting is guaranteed by the program. -/
theorem topEntities_tiebreak_counterexample :
    TopEntitiesResult (fun r => r.name) 10 tieSubset
      [{ key := "B", count := 1 }, { key := "A", count := 1 }] ∧
    TopEntitiesResult (fun r => r.name) 10 tieSubset
      [{ key := "A", count := 1 }, { key := "B", count := 1 }] ∧
    ([{ key := "B", count := 1 }, { key := "A", count := 1 }] : List CountRow)
      ≠ [{ key := "A", count := 1 }, { key := "B", count := 1 }] := by
  refine ⟨⟨[{ key := "B", count := 1 }, { key := "A", count := 1 }],
      ⟨?_, by decide⟩, rfl⟩,
    ⟨[{ key := "A", count := 1 }, { key := "B", count := 1 }],
      ⟨groupCounts_tie_perm.symm, by decide⟩, rfl⟩, by decide⟩
  exact (List.Perm.swap _ _ _).trans groupCounts_tie_perm.symm

/-- C4 amended: any top-10 list the code may render — the truncation to ten
of any output the sort contract permits — has at most ten entries; each
entry counts the medal-bearing input rows carrying its key, which occurs
on some medal-bearing row; the list is non-increasing in count; and it is
itself an admissible output of re-sorting it by count — though the
unstable sort fixes no tie order, so the exact list is not determined. -/
theorem topEntities_amended (key : Row → String) (df : List Row)
    (res : List CountRow) (h : TopEntitiesResult key 10 df res) :
    res.length ≤ 10 ∧
    (∀ e ∈ res,
      e.count = (df.filter (fun r => r.medal.isSome && decide (key r = e.key))).length ∧
      ∃ r ∈ df, r.medal.isSome ∧ key r = e.key) ∧
    res.Pairwise (fun a b => b.count ≤ a.count) ∧
    SortValuesDesc (fun e => e.count) res res := by
  obtain ⟨out, ⟨hperm, hsort⟩, rfl⟩ := h
  have hpair : (out.take 10).Pairwise (fun a b => b.count ≤ a.count) :=
    hsort.sublist (List.take_sublist 10 out)
  refine ⟨List.length_take_le 10 _, ?_, hpair, List.Perm.refl _, hpair⟩
  intro e he
  have he2 : e ∈ groupCounts key df :=
    hperm.mem_iff.mp (List.take_subset 10 out he)
  unfold groupCounts at he2
  rcases List.mem_map.mp he2 with ⟨k, hk, rfl⟩
  rw [mem_sortedDedup] at hk
  rcases List.mem_map.mp hk with ⟨r, hr, hkey⟩
  constructor
  · rw [List.filter_filter]
    apply congrArg List.length
    apply List.filter_congr
    intro x _
    exact Bool.and_comm _ _
  · exact ⟨r, List.mem_of_mem_filter hr, (List.mem_filter.mp hr).2, hkey⟩

/-- Witness for C4's amended theorem: applied to a one-athlete subset and
its (single) permitted result, reading off the length bound. -/
theorem topEntities_amended_witness :
    ([{ key := "A", count := 1 }] : List CountRow).length ≤ 10 :=
  (topEntities_amended (fun r => r.name) [tieRowA] [{ key := "A", count := 1 }]
    ⟨[{ key := "A", count := 1 }], ⟨by decide, by decide⟩, rfl⟩).1

/-- Counterexample to C3 as stated: on a one-row subset whose single
medal-bearing row has an absent region, the tally totals sum to 0 while the
medal-bearing row count is 1 — the groupby drops the null region key, so
absent-region rows are not included in the totals. -/
theorem medalTally_sum_counterexample :
    ((overall_tally [unmappedGoldRow]).map (fun t => t.total)).sum = 0 ∧
    (([unmappedGoldRow].filter (fun r => r.medal.isSome)).length = 1) ∧
    ((overall_tally [unmappedGoldRow]).map (fun t => t.total)).sum ≠
      ([unmappedGoldRow].filter (fun r => r.medal.isSome)).length := by
  refine ⟨by decide, by decide, by decide⟩

theorem length_regionGroup (md : List Row) (k : String) :
    (regionGroup md k).length = ((md.filterMap (fun r => r.region)).count k) := by
  induction md with
  | nil => rfl
  | cons r md ih =>
      unfold regionGroup at *
      cases hr : r.region with
      | none => simp [List.filter_cons, List.filterMap_cons, hr, ih]
      | some v =>
          by_cases hv : v = k <;>
            simp [List.filter_cons, List.filterMap_cons, hr, hv, List.count_cons, ih]

theorem length_filterMap_region (md : List Row) :
    (md.filterMap (fun r => r.region)).length
      = (md.filter (fun r => r.region.isSome)).length := by
  induction md with
  | nil => rfl
  | cons r md ih =>
      cases hr : r.region <;>
        simp [List.filterMap_cons, List.filter_cons, hr, ih]

/-- C3 amended: the tally totals sum to the number of medal-bearing rows of
the subset whose region is present; medal-bearing rows with an absent
region are not counted. -/
theorem medalTally_total_sum (subset : List Row) :
    ((overall_tally subset).map (fun t => t.total)).sum =
      (subset.filter (fun r => r.medal.isSome && r.region.isSome)).length := by
  unfold overall_tally tallyRows
  have hperm := ((perm_sortDesc (fun t : TallyRow => t.total)
    ((sortedDedup ((medalRows subset).filterMap (fun r => r.region))).map
      (tallyRowFor (medalRows subset)))).map (fun t => t.total)).sum_eq
  rw [hperm, List.map_map]
  have hmd : ∀ r ∈ medalRows subset, r.medal.isSome := by
    intro r hr; exact (List.mem_filter.mp hr).2
  have htot : ∀ k ∈ sortedDedup ((medalRows subset).filterMap (fun r => r.region)),
      ((fun t : TallyRow => t.total) ∘ tallyRowFor (medalRows subset)) k
        = ((medalRows subset).filterMap (fun r => r.region)).count k := by
    intro k _
    have := countMedal_sum (regionGroup (medalRows subset) k)
      (fun r hr => hmd r (List.mem_of_mem_filter hr))
    simp only [Function.comp, tallyRowFor, this]
    exact length_regionGroup (medalRows subset) k
  rw [List.map_congr_left htot]
  have hperm2 := ((perm_sortAsc
    ((medalRows subset).filterMap (fun r => r.region)).dedup).map
      (fun k => ((medalRows subset).filterMap (fun r => r.region)).count k)).sum_eq
  rw [sortedDedup, hperm2, List.sum_map_count_dedup_eq_length,
    length_filterMap_region]
  unfold medalRows
  rw [List.filter_filter]
  apply congrArg List.length
  apply List.filter_congr
  intro r _
  cases r.medal <;> cases r.region <;> simp

/-- Counterexample to C5 as stated: on a table whose year 2000 has only an
"F" row and whose year 2004 has only an "M" row, the (2000, "M") cell of
the yearly count is the missing value `none` — not zero — because the
code's `unstack()` call passes no `fill_value`. -/
theorem yearlyCount_counterexample :
    ∃ p ∈ gender_trend [trendRowA, trendRowB],
      p.fst = 2000 ∧ ∃ q ∈ p.snd, q.fst = "M" ∧ q.snd = none ∧ q.snd ≠ some 0 := by
  refine ⟨((2000 : Int),
    (sortedDedup ([trendRowA, trendRowB].map (fun r => r.sex))).map (fun s =>
      (s, if ([trendRowA, trendRowB].filter
                (fun r => decide (r.year = (2000 : Int) ∧ r.sex = s))).length = 0
          then none
          else some ([trendRowA, trendRowB].filter
                (fun r => decide (r.year = (2000 : Int) ∧ r.sex = s))).length))),
    ?_, rfl, ("M", none), ?_, rfl, rfl, by simp⟩
  · exact List.mem_map_of_mem _ ((mem_sortedDedup _ _).mpr (by decide))
  · have hM : ("M" : String) ∈ sortedDedup ([trendRowA, trendRowB].map (fun r => r.sex)) :=
      (mem_sortedDedup _ _).mpr (by decide)
    exact List.mem_map.mpr ⟨"M", hM, by rfl⟩

/-- C5 amended: the yearly count has exactly one row per distinct year of
the input and one cell per distinct sex value; a cell is the missing value
`none` exactly when its (year, sex) combination is absent from the input,
and otherwise holds the (positive) row count of that combination. -/
theorem yearlyCount_amended (table : List Row) :
    ((gender_trend table).map Prod.fst).Nodup ∧
    (∀ y : Int, (∃ p ∈ gender_trend table, p.fst = y) ↔ ∃ r ∈ table, r.year = y) ∧
    (∀ p ∈ gender_trend table,
      (∀ s : String, (∃ q ∈ p.snd, q.fst = s) ↔ ∃ r ∈ table, r.sex = s) ∧
      (∀ q ∈ p.snd,
        (q.snd = none ↔ ¬ ∃ r ∈ table, r.year = p.fst ∧ r.sex = q.fst) ∧
        (∀ n, q.snd = some n →
          n = (table.filter (fun r =>
            decide (r.year = p.fst ∧ r.sex = q.fst))).length))) := by
  refine ⟨?_, ?_, ?_⟩
  · have h : (gender_trend table).map Prod.fst
        = sortedDedup (table.map (fun r => r.year)) := by
      unfold gender_trend
      rw [List.map_map]
      exact List.map_id _
    rw [h]
    exact nodup_sortedDedup _
  · intro y
    unfold gender_trend
    constructor
    · rintro ⟨p, hp, rfl⟩
      rcases List.mem_map.mp hp with ⟨y', hy', rfl⟩
      rcases List.mem_map.mp ((mem_sortedDedup _ _).mp hy') with ⟨r, hr, hry⟩
      exact ⟨r, hr, hry⟩
    · rintro ⟨r, hr, rfl⟩
      refine ⟨_, List.mem_map_of_mem _ ((mem_sortedDedup _ _).mpr ?_), rfl⟩
      exact List.mem_map_of_mem _ hr
  · intro p hp
    unfold gender_trend at hp
    rcases List.mem_map.mp hp with ⟨y, _, rfl⟩
    constructor
    · intro s
      constructor
      · rintro ⟨q, hq, rfl⟩
        rcases List.mem_map.mp hq with ⟨s', hs', rfl⟩
        rcases List.mem_map.mp ((mem_sortedDedup _ _).mp hs') with ⟨r, hr, hrs⟩
        exact ⟨r, hr, hrs⟩
      · rintro ⟨r, hr, rfl⟩
        refine ⟨_, List.mem_map_of_mem _ ((mem_sortedDedup _ _).mpr ?_), rfl⟩
        exact List.mem_map_of_mem _ hr
    · intro q hq
      rcases List.mem_map.mp hq with ⟨s, _, rfl⟩
      dsimp only
      constructor
      · by_cases hz :
          (table.filter (fun r => decide (r.year = y ∧ r.sex = s))).length = 0
        · rw [if_pos hz]
          rw [List.length_eq_zero, List.filter_eq_nil_iff] at hz
          refine iff_of_true rfl ?_
          rintro ⟨r, hr, hry, hrs⟩
          exact hz r hr (by simp [hry, hrs])
        · rw [if_neg hz]
          have hne : table.filter (fun r => decide (r.year = y ∧ r.sex = s)) ≠ [] := by
            intro hnil
            exact hz (by rw [hnil]; rfl)
          rcases List.exists_mem_of_ne_nil _ hne with ⟨r, hr⟩
          have hr' := List.mem_filter.mp hr
          refine iff_of_false (by simp) ?_
          intro hcontra
          exact hcontra ⟨r, hr'.1, by simpa using hr'.2⟩
      · intro n hn
        by_cases hz :
          (table.filter (fun r => decide (r.year = y ∧ r.sex = s))).length = 0
        · rw [if_pos hz] at hn
          cases hn
        · rw [if_neg hz] at hn
          cases hn
          rfl

/-- C6: the summary metrics are the cardinality of the set of athlete IDs,
the cardinality of the set of event identities, and the plain (non-distinct)
count of medal-bearing rows; on the spec's three-row scenario the filter
keeps exactly the two 2016 USA Swimming rows and the medal-row metric is 1
(the no-medal row does not count). -/
theorem summaryMetrics_spec :
    (∀ subset : List Row,
      summaryMetrics subset =
        ((subset.map (fun r => r.id)).toFinset.card,
         (subset.map (fun r => r.event)).toFinset.card,
         (subset.filter (fun r => r.medal.isSome)).length)) ∧
    filtered_df [scenarioRow1, scenarioRow2, scenarioRow3] scenarioSel
      = [scenarioRow1, scenarioRow2] ∧
    (summaryMetrics
      (filtered_df [scenarioRow1, scenarioRow2, scenarioRow3] scenarioSel)).2.2 = 1 := by
  refine ⟨?_, by decide, by decide⟩
  intro subset
  simp [summaryMetrics, List.card_toFinset]

theorem overall_tally_cons_noneRegion (r : Row) (hr : r.region = none)
    (subset : List Row) :
    overall_tally (r :: subset) = overall_tally subset := by
  have htr : tallyRows (r :: subset) = tallyRows subset := by
    unfold tallyRows
    by_cases hm : r.medal.isSome
    · have h1 : medalRows (r :: subset) = r :: medalRows subset := by
        unfold medalRows
        rw [List.filter_cons, if_pos hm]
      rw [h1]
      have h2 : (r :: medalRows subset).filterMap (fun x => x.region)
          = (medalRows subset).filterMap (fun x => x.region) := by
        rw [List.filterMap_cons, hr]
      rw [h2]
      apply List.map_congr_left
      intro k _
      unfold tallyRowFor regionGroup
      rw [List.filter_cons, if_neg (by simp [hr])]
    · have h1 : medalRows (r :: subset) = medalRows subset := by
        unfold medalRows
        rw [List.filter_cons, if_neg (by simp [hm])]
      rw [h1]
  unfold overall_tally
  rw [htr]

/-- C7: an athlete row whose committee code matches nothing in the lookup
table survives the left merge as a row with an absent region; any
absent-region row contributes nothing to the region-grouped medal tally;
and whenever the overall checkbox is off (so the `region ∈ countries` test
applies) an absent-region row is dropped by the sidebar filter. -/
theorem unmatchedJoin_spec (athletes : List AthleteEvent) (nocs : List NocRegion)
    (a : AthleteEvent) (ha : a ∈ athletes) (hno : ∀ n ∈ nocs, n.noc ≠ a.noc) :
    toRow a none ∈ load_data athletes nocs ∧
    (∀ (subset : List Row) (r : Row), r.region = none →
      overall_tally (r :: subset) = overall_tally subset) ∧
    (∀ (table : List Row) (sel : FilterSelection) (r : Row),
      sel.overallMode = false → r.region = none → r ∉ filtered_df table sel) := by
  refine ⟨?_, fun subset r hr => overall_tally_cons_noneRegion r hr subset, ?_⟩
  · have hmerge : mergeRow nocs a = [toRow a none] := by
      unfold mergeRow
      rw [List.filter_eq_nil_iff.mpr (fun n hn => by simp [hno n hn])]
    exact List.mem_flatMap.mpr ⟨a, ha, by rw [hmerge]; exact List.mem_singleton.mpr rfl⟩
  · intro table sel r hover hr hmem
    rcases (mem_filtered_df table sel hover r).mp hmem with ⟨_, _, ⟨c, _, hc⟩, _⟩
    rw [hr] at hc
    cases hc

/-- Witness for C7 at a concrete input: the unmatched athlete's row is
retained in the joined table with an absent region. -/
theorem unmatchedJoin_spec_witness :
    toRow unmatchedAthlete none
      ∈ load_data [unmatchedAthlete] [{ noc := "USA", region := "USA" }] :=
  (unmatchedJoin_spec _ _ unmatchedAthlete (by decide) (by decide)).1

/-- C8: the query engine never rewrites the joined table — the sidebar
filter only selects existing rows, so its result is a sublist of the
joined table: no row is fabricated and no attribute is altered (and every
operation in this development is a pure function of the table value, which
is therefore unchanged after load). -/
theorem filterRows_sublist (table : List Row) (sel : FilterSelection) :
    (filtered_df table sel).Sublist table := by
  by_cases h : sel.overallMode = true
  · simp [filtered_df, h]
  · simp only [filtered_df, if_neg h]
    cases hm : sel.medal with
    | none => exact List.filter_sublist _
    | some m => exact (List.filter_sublist _).trans (List.filter_sublist _)

/-- C9: the exported subset is insensitive to the medal choice — replacing
the selection's medal with any other value leaves it unchanged — and it
holds exactly the rows (of any medal value, including none) passing the
three set-membership tests. -/
theorem advancedFilter_spec (table : List Row) (sel : FilterSelection) :
    (∀ m : Option Medal,
      filtered_advanced_df table
        { years := sel.years, countries := sel.countries, sports := sel.sports,
          medal := m, overallMode := sel.overallMode }
        = filtered_advanced_df table sel) ∧
    (∀ r : Row, r ∈ filtered_advanced_df table sel ↔
      r ∈ table ∧ r.year ∈ sel.years ∧ (∃ c ∈ sel.countries, r.region = some c) ∧
        r.sport ∈ sel.sports) := by
  constructor
  · intro m
    rfl
  · intro r
    unfold filtered_advanced_df
    simp only [List.mem_filter, Bool.and_eq_true, decide_eq_true_eq]
    tauto

/-- Witness for C9 at a concrete input: a Silver-medal row is kept by the
advanced filter even though the selection's medal radio says Gold. -/
theorem advancedFilter_spec_witness :
    scenarioRow3 ∈ filtered_advanced_df [scenarioRow3]
      { years := [2012], countries := ["Canada"], sports := ["Hockey"],
        medal := some Medal.Gold, overallMode := false } :=
  ((advancedFilter_spec _ _).2 scenarioRow3).mpr (by decide)

/-- C10: the per-country aggregate views are a function of the joined table
and the per-view country choices alone — two renderings under different
sidebar selections coincide, and each view equals its computation from the
full unfiltered table. -/
theorem perCountryViews_independent_of_sidebar (table : List Row)
    (ch : ViewChoices) (sel₁ sel₂ : FilterSelection) :
    renderViews table sel₁ ch = renderViews table sel₂ ch ∧
    (renderViews table sel₁ ch).topAthletesView = top_athletes table ch.athleteCountry ∧
    (renderViews table sel₁ ch).topSportsView = top_sports table ch.sportsCountry ∧
    (renderViews table sel₁ ch).medalsOverTimeView = medals_over_time table ch.trendCountry ∧
    (renderViews table sel₁ ch).sportsHeatmapView = sports_heatmap table ch.heatCountry ∧
    (renderViews table sel₁ ch).genderCountView = gender_count table ch.genderCountry :=
  ⟨rfl, rfl, rfl, rfl, rfl, rfl⟩
